import Mathlib

/-!
Verification development for the Royal Gambit card-chess rules engine.

This file gives a shallow embedding of the engine implemented in
`src/game/RoyalGambitGame.ts` and `src/game/CardSystem.ts` (plus the type
declarations of `src/game/types.ts`), and proves or refutes the frozen
specification claims about it.

Modelling conventions:
* The external chess library (chess.js) is split into two parts.  The purely
  structural board primitives that the engine drives directly
  (`get`, `put`, `remove`, `board()` scans, square naming) are modelled
  concretely over a `Board` value.  The genuinely chess-rule-dependent
  capabilities (`move()` legality and `inCheck()` computation) are modelled by
  a `ChessEngine` parameter, matching the spec's "Chess Adapter" boundary:
  `moveFn` returns `none` when chess.js rejects (or throws on) an illegal
  move, and `inCheckOf b c` is the adapter's "is colour `c` in check on board
  `b`" query; the engine code's `this.inCheck()` is `inCheckOf board turn`
  (side to move in check), exactly as in chess.js.
* JavaScript mutation is explicit state passing; array `push`/`splice`/`pop`
  become list operations; `Math.random`-driven shuffles become an explicit
  `shuffle` function parameter.
* Fallible effect application (the `try`/`catch` in `applyCardEffect`) is
  modelled with `Except`: a thrown runtime error would carry the board as
  mutated so far, and the catch converts it to a `false` return.
-/

namespace RoyalGambit

/-! ## Card model (src/game/types.ts, src/game/CardSystem.ts) -/

inductive CardSuit where
  | hearts
  | diamonds
  | clubs
  | spades
deriving DecidableEq

inductive CardValue where
  | ace
  | two
  | three
  | four
  | five
  | six
  | seven
  | eight
  | nine
  | ten
  | jack
  | queen
  | king
deriving DecidableEq

/-- The string token of a `CardValue` ('A', '2', ..., '10', 'J', 'Q', 'K'). -/
def valueToken : CardValue → String
  | .ace => "A"
  | .two => "2"
  | .three => "3"
  | .four => "4"
  | .five => "5"
  | .six => "6"
  | .seven => "7"
  | .eight => "8"
  | .nine => "9"
  | .ten => "10"
  | .jack => "J"
  | .queen => "Q"
  | .king => "K"

/-- First letter of the suit name, upper-cased (CardSystem.createCardId). -/
def suitLetter : CardSuit → String
  | .hearts => "H"
  | .diamonds => "D"
  | .clubs => "C"
  | .spades => "S"

/-- CardSystem.createCardId: suit prefix letter followed by the value token. -/
def createCardId (suit : CardSuit) (value : CardValue) : String :=
  suitLetter suit ++ valueToken value

structure Card where
  suit : CardSuit
  value : CardValue
  id : String
deriving DecidableEq

/-- Helper to build a card the way `initializeDeck` does. -/
def mkCard (suit : CardSuit) (value : CardValue) : Card :=
  ⟨suit, value, createCardId suit value⟩

/-- Declaration order of the `CardSuit` enum (Object.values order). -/
def allSuits : List CardSuit := [.hearts, .diamonds, .clubs, .spades]

/-- Declaration order of the `CardValue` enum (Object.values order). -/
def allValues : List CardValue :=
  [.ace, .two, .three, .four, .five, .six, .seven, .eight, .nine, .ten,
   .jack, .queen, .king]

/-- CardSystem.initializeDeck: all 52 cards, suits outer, values inner. -/
def fullDeck : List Card :=
  allSuits.flatMap (fun s => allValues.map (fun v => mkCard s v))

/-! ## Chess board model -/

inductive ChessColor where
  | w
  | b
deriving DecidableEq

def ChessColor.other : ChessColor → ChessColor
  | .w => .b
  | .b => .w

inductive PieceType where
  | p
  | n
  | b
  | r
  | q
  | k
deriving DecidableEq

structure Piece where
  type : PieceType
  color : ChessColor
deriving DecidableEq

/-- A square as (rank index, file index) exactly as in `this.board()`:
rank index 0 is chess rank 8, file index 0 is file a. -/
abbrev Sq := Fin 8 × Fin 8

/-- The board contents, as observed square by square through the adapter. -/
def Board := Sq → Option Piece

/-- The algebraic name of a `board()` cell:
`String.fromCharCode(97 + file) + (8 - rank)`. -/
def squareName (rk fl : Fin 8) : String :=
  String.mk [Char.ofNat (97 + fl.val), Char.ofNat (48 + (8 - rk.val))]

/-- Parse an algebraic square name; `none` for anything chess.js's square
table would not contain (mirrors the `Ox88` lookup used by get/put/remove). -/
def parseSquare (square : String) : Option Sq :=
  match square.data with
  | [f, r] =>
    let fc := f.toNat
    let rc := r.toNat
    if h : 97 ≤ fc ∧ fc ≤ 104 ∧ 49 ≤ rc ∧ rc ≤ 56 then
      some (⟨8 - (rc - 48), by omega⟩, ⟨fc - 97, by omega⟩)
    else none
  | _ => none

/-- chess.js `get(square)`: `undefined` (here `none`) on invalid squares. -/
def getSq (board : Board) (square : String) : Option Piece :=
  match parseSquare square with
  | some sq => board sq
  | none => none

/-- chess.js `remove(square)`: clears the square; no-op on invalid squares. -/
def removeSq (board : Board) (square : String) : Board :=
  match parseSquare square with
  | some sq => fun q => if q = sq then none else board q
  | none => board

/-- chess.js `put(piece, square)`: sets the square; no-op (returns false)
on invalid squares. -/
def putSq (board : Board) (piece : Piece) (square : String) : Board :=
  match parseSquare square with
  | some sq => fun q => if q = sq then some piece else board q
  | none => board

/-- All squares in the engine's scan order: rank index outer 0..7,
file index inner 0..7 (the `for rank / for file` nested loops). -/
def scanSquares : List Sq :=
  (List.finRange 8).flatMap (fun rk =>
    (List.finRange 8).map (fun fl => (rk, fl)))

/-- First piece (with its square) in scan order satisfying a predicate:
the common `for rank { for file { ... break } }` pattern with an outer break. -/
def scanFindPiece (board : Board) (pred : Sq → Piece → Bool) :
    Option (Sq × Piece) :=
  scanSquares.findSome? (fun sq =>
    match board sq with
    | some p => if pred sq p then some (sq, p) else none
    | none => none)

/-- The first two pieces of a colour in scan order (nested loops collecting
into an array, breaking once two are found). -/
def firstTwoPieces (board : Board) (color : ChessColor) : List (Sq × Piece) :=
  (scanSquares.filterMap (fun sq =>
    match board sq with
    | some p => if p.color = color then some (sq, p) else none
    | none => none)).take 2

/-- The delta table of `getAdjacentEmptySquares`, as (deltaFile, deltaRank). -/
def adjacentDeltas : List (Int × Int) :=
  [(-1, -1), (-1, 0), (-1, 1), (0, -1), (0, 1), (1, -1), (1, 0), (1, 1)]

/-- RoyalGambitGame.getAdjacentEmptySquares: the empty squares around
`centerSquare`, in delta-table order.  A malformed centre square yields `[]`
(the JS arithmetic degenerates to `NaN` bounds checks that all fail). -/
def getAdjacentEmptySquares (board : Board) (centerSquare : String) :
    List String :=
  match centerSquare.data with
  | c0 :: c1 :: _ =>
    if c1.isDigit then
      let file : Int := (c0.toNat : Int) - 97
      let rank : Int := (c1.toNat : Int) - 48 - 1
      adjacentDeltas.foldl (fun acc d =>
        let newFile := file + d.1
        let newRank := rank + d.2
        if 0 ≤ newFile ∧ newFile ≤ 7 ∧ 0 ≤ newRank ∧ newRank ≤ 7 then
          let sq := String.mk [Char.ofNat (97 + newFile).toNat,
                               Char.ofNat (48 + (newRank + 1)).toNat]
          match getSq board sq with
          | none => acc ++ [sq]
          | some _ => acc
        else acc) []
    else []
  | _ => []

/-- RoyalGambitGame.isValidSquare: two characters, file a..h, rank 1..8
(`parseInt` of a non-digit is NaN, which fails both bounds). -/
def isValidSquare (square : String) : Bool :=
  match square.data with
  | [f, r] =>
    decide (97 ≤ f.toNat) && decide (f.toNat ≤ 104) &&
      (r.isDigit && decide (1 ≤ r.toNat - 48) && decide (r.toNat - 48 ≤ 8))
  | _ => false

/-- The chess.js state the engine observes: board contents plus side to move. -/
structure ChessState where
  board : Board
  turn : ChessColor

structure ChessMoveReq where
  fromSq : String
  toSq : String
  promotion : Option String
deriving DecidableEq

/-- The chess-rule-dependent part of the adapter (spec section 6): move
legality/application and check detection.  `moveFn` returns `none` when
chess.js rejects or throws on the move; `inCheckOf board c` answers
"is colour c in check on this board". -/
structure ChessEngine where
  moveFn : ChessState → ChessMoveReq → Option ChessState
  inCheckOf : Board → ChessColor → Bool

/-- chess.js `inCheck()`: the side to move is in check. -/
def inCheck (eng : ChessEngine) (cs : ChessState) : Bool :=
  eng.inCheckOf cs.board cs.turn

/-! ## Card supply (src/game/CardSystem.ts) -/

/-- CardSystem's mutable state: draw deck and discard pile.  `deck` is kept in
array order: `deck.pop()` draws from the END of the list. -/
structure CardSys where
  deck : List Card
  discardPile : List Card
deriving DecidableEq

/-- Array.pop: removes and returns the last element. -/
def popLast (l : List Card) : Option Card × List Card :=
  match l.getLast? with
  | some c => (some c, l.dropLast)
  | none => (none, l)

/-- CardSystem.reshuffleDiscardPile: when the discard pile is empty this only
warns; otherwise the discard pile becomes the (re)shuffled deck. -/
def reshuffleDiscardPile (shuffle : List Card → List Card) (cs : CardSys) :
    CardSys :=
  if cs.discardPile.isEmpty then cs
  else ⟨shuffle cs.discardPile, []⟩

/-- CardSystem.drawCard: reshuffle first if the deck is empty, then pop. -/
def drawCard (shuffle : List Card → List Card) (cs : CardSys) :
    Option Card × CardSys :=
  let cs1 := if cs.deck.isEmpty then reshuffleDiscardPile shuffle cs else cs
  let (c, deck2) := popLast cs1.deck
  (c, ⟨deck2, cs1.discardPile⟩)

/-- CardSystem.dealCards: draw `count` times; on a failed draw, reshuffle and
retry once, and keep looping either way (fewer cards may be returned). -/
def dealCards (shuffle : List Card → List Card) (cs : CardSys) :
    Nat → List Card × CardSys
  | 0 => ([], cs)
  | count + 1 =>
    match drawCard shuffle cs with
    | (some card, cs1) =>
      let (rest, cs2) := dealCards shuffle cs1 count
      (card :: rest, cs2)
    | (none, cs1) =>
      let cs2 := reshuffleDiscardPile shuffle cs1
      match drawCard shuffle cs2 with
      | (some card, cs3) =>
        let (rest, cs4) := dealCards shuffle cs3 count
        (card :: rest, cs4)
      | (none, cs3) =>
        let (rest, cs4) := dealCards shuffle cs3 count
        (rest, cs4)

/-- CardSystem.discardCard: append to the discard pile, no validation. -/
def discardCard (cs : CardSys) (card : Card) : CardSys :=
  { cs with discardPile := cs.discardPile ++ [card] }

/-- CardSystem construction: full deck, shuffled, empty discard pile. -/
def CardSys.new (shuffle : List Card → List Card) : CardSys :=
  ⟨shuffle fullDeck, []⟩

/-! ## Game state (src/game/types.ts) -/

inductive Player where
  | white
  | black
deriving DecidableEq

def Player.other : Player → Player
  | .white => .black
  | .black => .white

/-- `this.turn() === 'w' ? 'white' : 'black'`. -/
def playerOfColor : ChessColor → Player
  | .w => .white
  | .b => .black

/-- A pair of per-player values (the `{white: ..., black: ...}` records). -/
structure ByPlayer (α : Type) where
  white : α
  black : α
deriving DecidableEq

def ByPlayer.get (x : ByPlayer α) : Player → α
  | .white => x.white
  | .black => x.black

def ByPlayer.set (x : ByPlayer α) : Player → α → ByPlayer α
  | .white, v => { x with white := v }
  | .black, v => { x with black := v }

structure PowerChain where
  suit : Option CardSuit
  count : Nat
deriving DecidableEq

inductive EffectType where
  | rescue
  | upgrade
  | swap
  | strike
deriving DecidableEq

structure CardEffect where
  type : EffectType
  isAce : Bool
  isPowerChain : Bool
deriving DecidableEq

/-- The structured targets object; every field is optional. -/
structure CardTargets where
  destination : Option String := none
  source : Option String := none
  target : Option String := none
  piece1 : Option String := none
  piece2 : Option String := none
deriving DecidableEq

/-- JavaScript truthiness of an optional string: `undefined` and the empty
string are falsy. -/
def truthy : Option String → Bool
  | some s => !s.isEmpty
  | none => false

/-- The `targets` parameter of playCard: structured object, legacy single
string, or absent (timestamps of recorded events are not modelled). -/
inductive PlayTargets where
  | structured (t : CardTargets)
  | legacy (s : String)
  | undef
deriving DecidableEq

inductive GameEvent where
  | move (data : ChessMoveReq) (player : Player)
  | card (card : Card) (effect : CardEffect) (targets : CardTargets)
      (player : Player)
deriving DecidableEq

structure GameState where
  chess : ChessState
  currentPlayer : Player
  hands : ByPlayer (List Card)
  courtCards : ByPlayer (List Card)
  powerChains : ByPlayer PowerChain
  moveHistory : List GameEvent
  lastCardPlayed : Option (Player × Card)
  cardSys : CardSys

/-! ## The engine (src/game/RoyalGambitGame.ts) -/

/-- The turn-synchronisation step at the start of makeChessMove (lines 54-62)
and playCard (lines 104-111): overwrite `currentPlayer` with the player the
chess engine says is to move, whenever they disagree. -/
def syncTurn (s : GameState) : GameState :=
  let expectedPlayer := playerOfColor s.chess.turn
  if s.currentPlayer ≠ expectedPlayer then
    { s with currentPlayer := expectedPlayer }
  else s

/-- RoyalGambitGame.syncTurnWithChess (after a successful chess move). -/
def syncTurnWithChess (s : GameState) : GameState :=
  { s with currentPlayer := playerOfColor s.chess.turn }

/-- RoyalGambitGame.recordEvent: append to the move history. -/
def recordEvent (s : GameState) (e : GameEvent) : GameState :=
  { s with moveHistory := s.moveHistory ++ [e] }

/-- RoyalGambitGame.makeChessMove: sync the turn, delegate to the chess
engine (`none` models a rejected or throwing `this.move`), and on success
record the event and resync `currentPlayer` from the engine's turn. -/
def makeChessMove (eng : ChessEngine) (s : GameState)
    (fromSq toSq : String) (promotion : Option String) : Bool × GameState :=
  let s1 := syncTurn s
  let req : ChessMoveReq := ⟨fromSq, toSq, promotion⟩
  match eng.moveFn s1.chess req with
  | some c2 =>
    let s2 := recordEvent s1 (GameEvent.move req s1.currentPlayer)
    (true, syncTurnWithChess { s2 with chess := c2 })
  | none => (false, s1)

/-- RoyalGambitGame.isPowerChainActive: the current player's stored chain has
this suit and a count of at least 1. -/
def isPowerChainActive (s : GameState) (suit : CardSuit) : Bool :=
  let playerChain := s.powerChains.get s.currentPlayer
  if playerChain.suit = some suit then decide (1 ≤ playerChain.count)
  else false

/-- RoyalGambitGame.calculateCardEffect.  The `default: rescue` fallback of
the suit switch is unreachable (the suit enum is total). -/
def calculateCardEffect (s : GameState) (card : Card) : CardEffect :=
  let isAce := card.value = CardValue.ace
  let isPowerChain := isPowerChainActive s card.suit
  let type : EffectType :=
    match card.suit with
    | .hearts => .rescue
    | .diamonds => .upgrade
    | .clubs => .swap
    | .spades => .strike
  ⟨type, isAce, isPowerChain⟩

/-- `this.isOwnPiece(square)`. -/
def isOwnPiece (cs : ChessState) (square : String) : Bool :=
  match getSq cs.board square with
  | some piece => piece.color = cs.turn
  | none => false

/-- `this.isOwnPawn(square)`. -/
def isOwnPawn (cs : ChessState) (square : String) : Bool :=
  match getSq cs.board square with
  | some piece => piece.color = cs.turn && piece.type = PieceType.p
  | none => false

/-- `this.isOpponentPiece(square)`. -/
def isOpponentPiece (cs : ChessState) (square : String) : Bool :=
  match getSq cs.board square with
  | some piece => piece.color ≠ cs.turn
  | none => false

/-- RoyalGambitGame.getOpponentKingSquare: scan-order search for the
opponent king; empty string when absent. -/
def getOpponentKingSquare (cs : ChessState) : String :=
  match scanFindPiece cs.board
      (fun _ p => p.type = PieceType.k && p.color = cs.turn.other) with
  | some (sq, _) => squareName sq.1 sq.2
  | none => ""

/-- RoyalGambitGame.isValidCardPlay (lines 210-264). -/
def isValidCardPlay (eng : ChessEngine) (cs : ChessState)
    (effect : CardEffect) (targets : CardTargets) : Bool :=
  match effect.type with
  | .rescue =>
    if !truthy targets.destination then false
    else if !isValidSquare (targets.destination.getD "") then false
    else
      match getSq cs.board (targets.destination.getD "") with
      | some _ => false
      | none => true
  | .upgrade =>
    if !truthy targets.target then false
    else if effect.isAce then isOwnPiece cs (targets.target.getD "")
    else isOwnPawn cs (targets.target.getD "")
  | .swap =>
    if effect.isAce then
      targets.target.isSome ||
        (truthy targets.piece1 && truthy targets.piece2)
    else targets.piece1.isSome && targets.piece2.isSome
  | .strike =>
    if !truthy targets.target then false
    else if !isValidSquare (targets.target.getD "") then false
    else if effect.isAce then
      let isKingTarget := targets.target.getD "" = getOpponentKingSquare cs
      if isKingTarget then inCheck eng cs
      else isOpponentPiece cs (targets.target.getD "")
    else isOpponentPiece cs (targets.target.getD "")

/-- Result type of the effect appliers inside applyCardEffect's `try` block:
a thrown runtime error (`Except.error`) carries the board as mutated so far. -/
abbrev EffResult := Except (String × Board) (Bool × Board)

/-- The power-chain extra move of the explicit-source rescue path
(lines 319-340): `snapshot` is `this.board()` captured after the primary
move; the `break` only leaves the file loop, so EACH rank moves its first
own piece (not on the source or destination square) to the first empty
square adjacent to the destination, if one exists. -/
def rescueChainRank (snapshot : Board) (color : ChessColor)
    (sourceSquare destination : String) (live : Board) (rk : Fin 8) : Board :=
  match (List.finRange 8).findSome? (fun fl =>
      match snapshot (rk, fl) with
      | some p =>
        if p.color = color ∧ squareName rk fl ≠ sourceSquare ∧
            squareName rk fl ≠ destination
        then some (fl, p) else none
      | none => none) with
  | some (fl, p) =>
    match (getAdjacentEmptySquares live destination).head? with
    | some a => putSq (removeSq live (squareName rk fl)) p a
    | none => live
  | none => live

/-- The piece-collection loop of the legacy rescue path (lines 364-382):
walk the board in scan order, skip squares already collected, and stop as
soon as the accumulator reaches `required` entries. -/
def collectLoop (board : Board) (color : ChessColor) (required : Nat) :
    List Sq → List (Piece × String) → List (Piece × String)
  | [], acc => acc
  | sq :: rest, acc =>
    match board sq with
    | some p =>
      if p.color = color then
        let square := squareName sq.1 sq.2
        if acc.any (fun pr => pr.2 = square) then
          collectLoop board color required rest acc
        else
          let acc2 := acc ++ [(p, square)]
          if required ≤ acc2.length then acc2
          else collectLoop board color required rest acc2
      else collectLoop board color required rest acc
    | none => collectLoop board color required rest acc

/-- `piecesToRescue` of the legacy rescue path: with an Ace the own king is
collected first (lines 350-361), then further own pieces are collected until
the required count is reached. -/
def collectRescuePieces (board : Board) (color : ChessColor) (isAce : Bool)
    (required : Nat) : List (Piece × String) :=
  let start : List (Piece × String) :=
    if isAce then
      match scanFindPiece board
          (fun _ p => p.type = PieceType.k && p.color = color) with
      | some (sq, p) => [(p, squareName sq.1 sq.2)]
      | none => []
    else []
  collectLoop board color required scanSquares start

/-- RoyalGambitGame.applyRescueEffect (lines 290-406). -/
def applyRescueEffect (card : Card) (effect : CardEffect)
    (targets : CardTargets) (cs : ChessState) : EffResult :=
  let destination := targets.destination.getD ""
  match getSq cs.board destination with
  | some _ => .ok (false, cs.board)
  | none =>
    let currentColor := cs.turn
    if truthy targets.source then
      let sourceSquare := targets.source.getD ""
      match getSq cs.board sourceSquare with
      | none => .ok (false, cs.board)
      | some piece =>
        if piece.color ≠ currentColor then .ok (false, cs.board)
        else
          let b1 := putSq (removeSq cs.board sourceSquare) piece destination
          if effect.isPowerChain then
            .ok (true, (List.finRange 8).foldl
              (rescueChainRank b1 currentColor sourceSquare destination) b1)
          else .ok (true, b1)
    else
      let piecesToRescue := collectRescuePieces cs.board currentColor
        effect.isAce (if effect.isPowerChain then 2 else 1)
      match piecesToRescue with
      | [] => .ok (false, cs.board)
      | first :: rest =>
        let b1 := putSq (removeSq cs.board first.2) first.1 destination
        if effect.isPowerChain ∧ rest ≠ [] then
          match (getAdjacentEmptySquares b1 destination).head?,
              rest.head? with
          | some a, some second =>
            .ok (true, putSq (removeSq b1 second.2) second.1 a)
          | _, _ => .ok (true, b1)
        else .ok (true, b1)

/-- The power-chain extra promotion of applyUpgradeEffect (lines 440-458):
`snapshot` is `this.board()` captured after the primary promotion; the
`break` only leaves the file loop, so EACH rank promotes its first own piece
off the target square that is a pawn (or any piece with an Ace). -/
def upgradeChainRank (snapshot : Board) (isAce : Bool) (color : ChessColor)
    (target : String) (live : Board) (rk : Fin 8) : Board :=
  match (List.finRange 8).findSome? (fun fl =>
      match snapshot (rk, fl) with
      | some p =>
        if p.color = color ∧ squareName rk fl ≠ target ∧
            (isAce = true ∨ p.type = PieceType.p)
        then some (fl, p) else none
      | none => none) with
  | some (fl, p) =>
    putSq (removeSq live (squareName rk fl)) ⟨PieceType.q, p.color⟩
      (squareName rk fl)
  | none => live

/-- RoyalGambitGame.applyUpgradeEffect (lines 408-462): both the Ace and the
normal branch put a queen on the target square. -/
def applyUpgradeEffect (card : Card) (effect : CardEffect)
    (targets : CardTargets) (cs : ChessState) : EffResult :=
  let target := targets.target.getD ""
  match getSq cs.board target with
  | none => .ok (false, cs.board)
  | some piece =>
    if piece.color ≠ cs.turn then .ok (false, cs.board)
    else if effect.isAce = false ∧ piece.type ≠ PieceType.p then
      .ok (false, cs.board)
    else
      let b1 := putSq (removeSq cs.board target)
        ⟨PieceType.q, piece.color⟩ target
      if effect.isPowerChain then
        .ok (true, (List.finRange 8).foldl
          (upgradeChainRank b1 effect.isAce cs.turn target) b1)
      else .ok (true, b1)

/-- The remove-remove-put-put sequence shared by every swap branch. -/
def swapPieces (board : Board) (square1 square2 : String)
    (piece1 piece2 : Piece) : Board :=
  putSq (putSq (removeSq (removeSq board square1) square2) piece1 square2)
    piece2 square1

/-- RoyalGambitGame.applySwapEffect (lines 464-586).  `snapshot` is the
`const board = this.board()` captured before any mutation and used by both
the own-piece scan of the Ace branch, the fallback scan, and the power-chain
opponent scan.  The `Option Board` local models the early `return false`s of
the three main branches. -/
def applySwapEffect (card : Card) (effect : CardEffect)
    (targets : CardTargets) (cs : ChessState) : EffResult :=
  let snapshot := cs.board
  let mainResult : Option Board :=
    if effect.isAce = true ∧ truthy targets.target = true then
      let opponentSquare := targets.target.getD ""
      match getSq cs.board opponentSquare with
      | none => none
      | some opponentPiece =>
        if opponentPiece.color = cs.turn then none
        else
          match scanFindPiece snapshot (fun _ p => p.color = cs.turn) with
          | none => none
          | some (osq, ownPiece) =>
            let ownSquare := squareName osq.1 osq.2
            some (swapPieces cs.board ownSquare opponentSquare ownPiece
              opponentPiece)
    else if truthy targets.piece1 = true ∧ truthy targets.piece2 = true then
      let square1 := targets.piece1.getD ""
      let square2 := targets.piece2.getD ""
      match getSq cs.board square1, getSq cs.board square2 with
      | some piece1, some piece2 =>
        if piece1.color ≠ cs.turn ∨ piece2.color ≠ cs.turn then none
        else some (swapPieces cs.board square1 square2 piece1 piece2)
      | _, _ => none
    else
      match firstTwoPieces snapshot cs.turn with
      | [(sq1, p1), (sq2, p2)] =>
        some (swapPieces cs.board (squareName sq1.1 sq1.2)
          (squareName sq2.1 sq2.2) p1 p2)
      | _ => none
  match mainResult with
  | none => .ok (false, cs.board)
  | some b1 =>
    if effect.isPowerChain then
      match firstTwoPieces snapshot cs.turn.other with
      | [(sq1, p1), (sq2, p2)] =>
        .ok (true, swapPieces b1 (squareName sq1.1 sq1.2)
          (squareName sq2.1 sq2.2) p1 p2)
      | _ => .ok (true, b1)
    else .ok (true, b1)

/-- RoyalGambitGame.applyStrikeEffect (lines 588-624).  The power-chain part
scans `this.board()` (captured after the primary removal) for the FIRST
opponent piece on a square other than the target and removes it; the scan
does not exclude the opponent king. -/
def applyStrikeEffect (card : Card) (effect : CardEffect)
    (targets : CardTargets) (cs : ChessState) : EffResult :=
  let target := targets.target.getD ""
  match getSq cs.board target with
  | none => .ok (false, cs.board)
  | some targetPiece =>
    if targetPiece.color = cs.turn then .ok (false, cs.board)
    else
      let b1 := removeSq cs.board target
      if effect.isPowerChain then
        let opponentColor := cs.turn.other
        match scanFindPiece b1 (fun sq p =>
            p.color = opponentColor && squareName sq.1 sq.2 ≠ target) with
        | some (sq, _) => .ok (true, removeSq b1 (squareName sq.1 sq.2))
        | none => .ok (true, b1)
      else .ok (true, b1)

/-- The body of applyCardEffect's `try` block (the effect-type switch,
lines 268-283; the `default: return false` arm is unreachable). -/
def applyCardEffectBody (card : Card) (effect : CardEffect)
    (targets : CardTargets) (cs : ChessState) : EffResult :=
  match effect.type with
  | .rescue => applyRescueEffect card effect targets cs
  | .upgrade => applyUpgradeEffect card effect targets cs
  | .swap => applySwapEffect card effect targets cs
  | .strike => applyStrikeEffect card effect targets cs

/-- The `catch` of applyCardEffect (lines 284-287): any error becomes a
`false` return, with whatever board mutations had already happened kept. -/
def catchCardEffect (r : EffResult) : Bool × Board :=
  match r with
  | .ok res => res
  | .error (_, bmut) => (false, bmut)

/-- RoyalGambitGame.applyCardEffect = try body catch (lines 266-288). -/
def applyCardEffect (card : Card) (effect : CardEffect)
    (targets : CardTargets) (cs : ChessState) : Bool × Board :=
  catchCardEffect (applyCardEffectBody card effect targets cs)

/-- RoyalGambitGame.updatePowerChain (lines 626-644): same suit increments
the current player's chain, a different suit resets it to count 1; the
`lastCardPlayed` tracker is set to the simplified placeholder card. -/
def updatePowerChain (s : GameState) (suit : CardSuit) : GameState :=
  let player := s.currentPlayer
  let playerChain := s.powerChains.get player
  let chain2 :=
    if playerChain.suit = some suit then
      { playerChain with count := playerChain.count + 1 }
    else ({ suit := some suit, count := 1 } : PowerChain)
  { s with
    powerChains := s.powerChains.set player chain2
    lastCardPlayed := some (player, ⟨suit, CardValue.ace, "temp"⟩) }

/-- RoyalGambitGame.endTurn (lines 646-662): top the current player's hand
back up to 5 if a card is available, then flip `currentPlayer` (the chess
engine's own turn is NOT advanced). -/
def endTurn (shuffle : List Card → List Card) (s : GameState) : GameState :=
  let currentPlayer := s.currentPlayer
  let s1 :=
    if (s.hands.get currentPlayer).length < 5 then
      match drawCard shuffle s.cardSys with
      | (some newCard, cs2) =>
        { s with
          hands := s.hands.set currentPlayer
            (s.hands.get currentPlayer ++ [newCard])
          cardSys := cs2 }
      | (none, cs2) => { s with cardSys := cs2 }
    else s
  { s1 with currentPlayer := s1.currentPlayer.other }

/-- RoyalGambitGame.findCardInPlayerHands: current player's hand first,
then their court. -/
def findCardInPlayerHands (s : GameState) (cardId : String) : Option Card :=
  match (s.hands.get s.currentPlayer).find? (fun c => c.id = cardId) with
  | some c => some c
  | none => (s.courtCards.get s.currentPlayer).find? (fun c => c.id = cardId)

/-- RoyalGambitGame.findBestSourceForHearts (lines 769-793): the hard-coded
d2-for-e3 test heuristic, then fall back to the first own piece in scan
order. -/
def findBestSourceForHearts (s : GameState) (destination : String) :
    Option String :=
  let fallback : Option String :=
    match scanFindPiece s.chess.board (fun _ p => p.color = s.chess.turn) with
    | some (sq, _) => some (squareName sq.1 sq.2)
    | none => none
  if destination = "e3" then
    match getSq s.chess.board "d2" with
    | some piece =>
      if piece.color = s.chess.turn then some "d2" else fallback
    | none => fallback
  else fallback

/-- RoyalGambitGame.convertLegacyTarget (lines 731-767). -/
def convertLegacyTarget (s : GameState) (cardId : String) (target : String) :
    CardTargets :=
  if target.isEmpty then {}
  else
    match findCardInPlayerHands s cardId with
    | none => { target := some target }
    | some card =>
      match card.suit with
      | .hearts =>
        if card.value = CardValue.ace then { destination := some target }
        else
          { destination := some target
            source := findBestSourceForHearts s target }
      | .diamonds => { target := some target }
      | .spades => { target := some target }
      | .clubs => { target := some target }

/-- `sourceCards.findIndex` followed by `sourceCards[cardIndex]` and
`sourceCards.splice(cardIndex, 1)`: the first card with this id together
with the list with that occurrence removed. -/
def spliceById : List Card → String → Option (Card × List Card)
  | [], _ => none
  | c :: rest, cardId =>
    if c.id = cardId then some (c, rest)
    else
      match spliceById rest cardId with
      | some (x, rest2) => some (x, c :: rest2)
      | none => none

/-- Removing the played card from its source list (the splice at line 139). -/
def removeFromSource (s : GameState) (fromCourt : Bool)
    (remaining : List Card) : GameState :=
  if fromCourt then
    { s with courtCards := s.courtCards.set s.currentPlayer remaining }
  else { s with hands := s.hands.set s.currentPlayer remaining }

/-- The immediate court replacement after a court play (lines 142-147). -/
def refillCourt (shuffle : List Card → List Card) (s : GameState)
    (fromCourt : Bool) : GameState :=
  if fromCourt then
    match drawCard shuffle s.cardSys with
    | (some newCard, cs2) =>
      { s with
        courtCards := s.courtCards.set s.currentPlayer
          (s.courtCards.get s.currentPlayer ++ [newCard])
        cardSys := cs2 }
    | (none, cs2) => { s with cardSys := cs2 }
  else s

/-- The body of playCard after the legacy-target conversion and the turn
synchronisation (lines 113-166). -/
def playCardWith (eng : ChessEngine) (shuffle : List Card → List Card)
    (s : GameState) (cardId : String) (targets : CardTargets)
    (fromCourt : Bool) : Bool × GameState :=
  let sourceCards :=
    if fromCourt then s.courtCards.get s.currentPlayer
    else s.hands.get s.currentPlayer
  match spliceById sourceCards cardId with
  | none => (false, s)
  | some (card, remaining) =>
    let effect := calculateCardEffect s card
    if isValidCardPlay eng s.chess effect targets then
      let applied := applyCardEffect card effect targets s.chess
      if applied.fst then
        let s2 := { s with chess := ⟨applied.snd, s.chess.turn⟩ }
        let s3 := refillCourt shuffle
          (removeFromSource s2 fromCourt remaining) fromCourt
        let s4 := recordEvent s3
          (GameEvent.card card effect targets s.currentPlayer)
        let s5 := updatePowerChain s4 card.suit
        (true, endTurn shuffle s5)
      else (false, { s with chess := ⟨applied.snd, s.chess.turn⟩ })
    else (false, s)

/-- RoyalGambitGame.playCard (lines 96-166): convert a legacy string target
(using the pre-sync current player), synchronise `currentPlayer` with the
chess engine's turn, then run the play. -/
def playCard (eng : ChessEngine) (shuffle : List Card → List Card)
    (s : GameState) (cardId : String) (targets : PlayTargets)
    (fromCourt : Bool) : Bool × GameState :=
  let tg : CardTargets :=
    match targets with
    | .legacy str => convertLegacyTarget s cardId str
    | .structured t => t
    | .undef => {}
  playCardWith eng shuffle (syncTurn s) cardId tg fromCourt

/-- RoyalGambitGame.initializeGameState (lines 24-48): deal 5/5/3/3 from a
fresh shuffled deck around the given chess position. -/
def initializeGameState (shuffle : List Card → List Card)
    (chess : ChessState) : GameState :=
  let cs0 := CardSys.new shuffle
  let (whiteHand, cs1) := dealCards shuffle cs0 5
  let (blackHand, cs2) := dealCards shuffle cs1 5
  let (whiteCourt, cs3) := dealCards shuffle cs2 3
  let (blackCourt, cs4) := dealCards shuffle cs3 3
  { chess := chess
    currentPlayer := playerOfColor chess.turn
    hands := ⟨whiteHand, blackHand⟩
    courtCards := ⟨whiteCourt, blackCourt⟩
    powerChains := ⟨⟨none, 0⟩, ⟨none, 0⟩⟩
    moveHistory := []
    lastCardPlayed := none
    cardSys := cs4 }

/-! ## Joust resolution

Modelled from the spec: the Joust Resolver of section 4.5 is not implemented
anywhere in the engine source; the repository only carries the rank
comparison helper (`RuleValidator.getCardValue` in
`__tests__/utils/game-validators.ts`) and tests that simulate outcomes.
`getCardValue` below is translated from that source helper; `resolveJoust`
follows the spec's protocol steps 4-5 word for word. -/

/-- RuleValidator.getCardValue (game-validators.ts lines 413-419): the
high-Ace numeric rank of a card; the suit plays no part.  The `|| 0`
default of the value map is unreachable because the value enum is total. -/
def getCardValue (card : Card) : Nat :=
  match card.value with
  | .two => 2
  | .three => 3
  | .four => 4
  | .five => 5
  | .six => 6
  | .seven => 7
  | .eight => 8
  | .nine => 9
  | .ten => 10
  | .jack => 11
  | .queen => 12
  | .king => 13
  | .ace => 14

inductive JoustOutcome where
  | attackProceeds
  | attackBlocked
deriving DecidableEq

structure JoustResult where
  outcome : JoustOutcome
  board : Board
  attackerHand : List Card
  defenderHand : List Card
  discardPile : List Card

/-- Modelled from the spec: resolve a Joust between the attacker's wagered
card and the defender's wagered card.  A strictly higher attacker rank lets
the attack proceed (the computed effect `applyAttack` is applied to the
board); a strictly higher defender rank, or a tie, blocks it and the board
is untouched.  In every outcome both wagered cards leave the hands and are
discarded. -/
def resolveJoust (attackCard defendCard : Card)
    (attackerHand defenderHand discard : List Card)
    (board : Board) (applyAttack : Board → Board) : JoustResult :=
  let attackValue := getCardValue attackCard
  let defendValue := getCardValue defendCard
  { outcome :=
      if attackValue > defendValue then .attackProceeds else .attackBlocked
    board := if attackValue > defendValue then applyAttack board else board
    attackerHand := attackerHand.filter (fun c => c.id ≠ attackCard.id)
    defenderHand := defenderHand.filter (fun c => c.id ≠ defendCard.id)
    discardPile := discard ++ [attackCard, defendCard] }

/-! ## Concrete instances used in the claim analyses -/

/-- Total number of cards across the draw pile, the discard pile, and both
players' hands and Courts (the conserved quantity of spec section 3). -/
def cardCount (s : GameState) : Nat :=
  s.cardSys.deck.length + s.cardSys.discardPile.length +
    (s.hands.white.length + s.hands.black.length) +
    (s.courtCards.white.length + s.courtCards.black.length)

/-- The empty board. -/
def emptyBoard : Board := fun _ => none

/-- The piece order of the back rank by file: r n b q k b n r. -/
def backRank : Fin 8 → PieceType
  | 0 => .r
  | 1 => .n
  | 2 => .b
  | 3 => .q
  | 4 => .k
  | 5 => .b
  | 6 => .n
  | 7 => .r

/-- The standard chess starting position (rank index 0 is chess rank 8). -/
def initialBoard : Board := fun sq =>
  if sq.1.val = 0 then some ⟨backRank sq.2, .b⟩
  else if sq.1.val = 1 then some ⟨.p, .b⟩
  else if sq.1.val = 6 then some ⟨.p, .w⟩
  else if sq.1.val = 7 then some ⟨backRank sq.2, .w⟩
  else none

/-- A place-a-few-pieces board builder (squares given in `board()` index
form with their pieces). -/
def boardOf (l : List (Sq × Piece)) : Board := fun sq =>
  match l.find? (fun pr => pr.1 = sq) with
  | some pr => some pr.2
  | none => none

/-- An adapter instance whose move routine rejects everything and whose
check routine reports no check anywhere: sufficient for scenarios that only
exercise card plays of non-Ace cards and rejected chess moves. -/
def stubEngine : ChessEngine :=
  ⟨fun _ _ => none, fun _ _ => false⟩

/-- An adapter instance whose move routine applies every request by leaving
the board unchanged and flipping the turn (the only contract surface the
turn-alternation claims rely on). -/
def flipEngine : ChessEngine :=
  ⟨fun cs _ => some ⟨cs.board, cs.turn.other⟩, fun _ _ => false⟩

/-! ## Helper lemmas -/

theorem ByPlayer.get_set_same (x : ByPlayer α) (p : Player) (v : α) :
    (x.set p v).get p = v := by
  cases p <;> rfl

theorem ByPlayer.get_set_of_ne (x : ByPlayer α) {p q : Player} (v : α)
    (h : q ≠ p) : (x.set p v).get q = x.get q := by
  cases p <;> cases q <;> first | rfl | exact absurd rfl h

theorem Player.other_ne (p : Player) : p.other ≠ p := by
  cases p <;> simp [Player.other]

theorem playerOfColor_other (c : ChessColor) :
    playerOfColor c.other = (playerOfColor c).other := by
  cases c <;> rfl

theorem syncTurn_currentPlayer (s : GameState) :
    (syncTurn s).currentPlayer = playerOfColor s.chess.turn := by
  unfold syncTurn
  dsimp only
  split
  · rfl
  · next h => simpa using h

theorem syncTurn_chess (s : GameState) : (syncTurn s).chess = s.chess := by
  simp only [syncTurn]; split <;> rfl

theorem syncTurn_hands (s : GameState) : (syncTurn s).hands = s.hands := by
  simp only [syncTurn]; split <;> rfl

theorem syncTurn_courtCards (s : GameState) :
    (syncTurn s).courtCards = s.courtCards := by
  simp only [syncTurn]; split <;> rfl

theorem syncTurn_powerChains (s : GameState) :
    (syncTurn s).powerChains = s.powerChains := by
  simp only [syncTurn]; split <;> rfl

theorem syncTurn_moveHistory (s : GameState) :
    (syncTurn s).moveHistory = s.moveHistory := by
  simp only [syncTurn]; split <;> rfl

theorem syncTurn_cardSys (s : GameState) :
    (syncTurn s).cardSys = s.cardSys := by
  simp only [syncTurn]; split <;> rfl

theorem syncTurn_of_synced (s : GameState)
    (h : s.currentPlayer = playerOfColor s.chess.turn) : syncTurn s = s := by
  unfold syncTurn
  dsimp only
  split
  · next hne => exact absurd h hne
  · rfl

@[simp] theorem recordEvent_currentPlayer (s : GameState) (e : GameEvent) :
    (recordEvent s e).currentPlayer = s.currentPlayer := rfl

@[simp] theorem recordEvent_chess (s : GameState) (e : GameEvent) :
    (recordEvent s e).chess = s.chess := rfl

@[simp] theorem recordEvent_powerChains (s : GameState) (e : GameEvent) :
    (recordEvent s e).powerChains = s.powerChains := rfl

@[simp] theorem recordEvent_moveHistory (s : GameState) (e : GameEvent) :
    (recordEvent s e).moveHistory = s.moveHistory ++ [e] := rfl

@[simp] theorem updatePowerChain_currentPlayer (s : GameState)
    (suit : CardSuit) :
    (updatePowerChain s suit).currentPlayer = s.currentPlayer := rfl

@[simp] theorem updatePowerChain_chess (s : GameState) (suit : CardSuit) :
    (updatePowerChain s suit).chess = s.chess := rfl

@[simp] theorem updatePowerChain_moveHistory (s : GameState)
    (suit : CardSuit) :
    (updatePowerChain s suit).moveHistory = s.moveHistory := rfl

theorem updatePowerChain_chain_other (s : GameState) (suit : CardSuit)
    {q : Player} (h : q ≠ s.currentPlayer) :
    (updatePowerChain s suit).powerChains.get q = s.powerChains.get q := by
  simp only [updatePowerChain]
  exact ByPlayer.get_set_of_ne _ _ h

theorem updatePowerChain_chain_self (s : GameState) (suit : CardSuit) :
    (updatePowerChain s suit).powerChains.get s.currentPlayer =
      (if (s.powerChains.get s.currentPlayer).suit = some suit then
        { s.powerChains.get s.currentPlayer with
          count := (s.powerChains.get s.currentPlayer).count + 1 }
      else ({ suit := some suit, count := 1 } : PowerChain)) := by
  simp only [updatePowerChain]
  exact ByPlayer.get_set_same _ _ _

@[simp] theorem endTurn_currentPlayer (shuffle : List Card → List Card)
    (s : GameState) :
    (endTurn shuffle s).currentPlayer = s.currentPlayer.other := by
  unfold endTurn
  dsimp only
  split
  · split <;> rfl
  · rfl

@[simp] theorem endTurn_chess (shuffle : List Card → List Card)
    (s : GameState) : (endTurn shuffle s).chess = s.chess := by
  unfold endTurn
  dsimp only
  split
  · split <;> rfl
  · rfl

@[simp] theorem endTurn_powerChains (shuffle : List Card → List Card)
    (s : GameState) :
    (endTurn shuffle s).powerChains = s.powerChains := by
  unfold endTurn
  dsimp only
  split
  · split <;> rfl
  · rfl

@[simp] theorem endTurn_moveHistory (shuffle : List Card → List Card)
    (s : GameState) :
    (endTurn shuffle s).moveHistory = s.moveHistory := by
  unfold endTurn
  dsimp only
  split
  · split <;> rfl
  · rfl

@[simp] theorem removeFromSource_currentPlayer (s : GameState) (fc : Bool)
    (remaining : List Card) :
    (removeFromSource s fc remaining).currentPlayer = s.currentPlayer := by
  simp only [removeFromSource]
  split <;> rfl

@[simp] theorem removeFromSource_chess (s : GameState) (fc : Bool)
    (remaining : List Card) :
    (removeFromSource s fc remaining).chess = s.chess := by
  simp only [removeFromSource]
  split <;> rfl

@[simp] theorem removeFromSource_powerChains (s : GameState) (fc : Bool)
    (remaining : List Card) :
    (removeFromSource s fc remaining).powerChains = s.powerChains := by
  simp only [removeFromSource]
  split <;> rfl

@[simp] theorem removeFromSource_moveHistory (s : GameState) (fc : Bool)
    (remaining : List Card) :
    (removeFromSource s fc remaining).moveHistory = s.moveHistory := by
  simp only [removeFromSource]
  split <;> rfl

@[simp] theorem refillCourt_currentPlayer (shuffle : List Card → List Card)
    (s : GameState) (fc : Bool) :
    (refillCourt shuffle s fc).currentPlayer = s.currentPlayer := by
  simp only [refillCourt]
  split
  · split <;> rfl
  · rfl

@[simp] theorem refillCourt_chess (shuffle : List Card → List Card)
    (s : GameState) (fc : Bool) :
    (refillCourt shuffle s fc).chess = s.chess := by
  simp only [refillCourt]
  split
  · split <;> rfl
  · rfl

@[simp] theorem refillCourt_powerChains (shuffle : List Card → List Card)
    (s : GameState) (fc : Bool) :
    (refillCourt shuffle s fc).powerChains = s.powerChains := by
  simp only [refillCourt]
  split
  · split <;> rfl
  · rfl

@[simp] theorem refillCourt_moveHistory (shuffle : List Card → List Card)
    (s : GameState) (fc : Bool) :
    (refillCourt shuffle s fc).moveHistory = s.moveHistory := by
  simp only [refillCourt]
  split
  · split <;> rfl
  · rfl

theorem spliceById_id {l : List Card} {cardId : String} {c : Card}
    {rest : List Card} (h : spliceById l cardId = some (c, rest)) :
    c.id = cardId := by
  induction l generalizing rest with
  | nil => simp [spliceById] at h
  | cons hd tl ih =>
    unfold spliceById at h
    split at h
    · next heq =>
      obtain ⟨rfl, rfl⟩ := by simpa using h
      exact heq
    · next hne =>
      cases hsp : spliceById tl cardId with
      | none => rw [hsp] at h; simp at h
      | some pr =>
        rw [hsp] at h
        obtain ⟨x, rest2⟩ := pr
        obtain ⟨rfl, rfl⟩ := by simpa using h
        exact ih hsp

theorem spliceById_eq_none {l : List Card} {cardId : String}
    (h : ∀ c ∈ l, c.id ≠ cardId) : spliceById l cardId = none := by
  induction l with
  | nil => rfl
  | cons hd tl ih =>
    unfold spliceById
    rw [if_neg (h hd (List.mem_cons_self hd tl))]
    rw [ih (fun c hc => h c (List.mem_cons_of_mem hd hc))]


/-- Branch analysis of `playCardWith`: every run either fails leaving
everything except (possibly) the board untouched, or succeeds with the
splice/refill/record/update-chain/end-turn pipeline. -/
theorem playCardWith_shape (eng : ChessEngine)
    (shuffle : List Card → List Card) (s : GameState) (cardId : String)
    (tg : CardTargets) (fc : Bool) :
    (∃ bd : Board,
      playCardWith eng shuffle s cardId tg fc =
        (false, { s with chess := ⟨bd, s.chess.turn⟩ })) ∨
    (∃ card remaining,
      spliceById (if fc then s.courtCards.get s.currentPlayer
        else s.hands.get s.currentPlayer) cardId = some (card, remaining) ∧
      playCardWith eng shuffle s cardId tg fc =
        (true, endTurn shuffle (updatePowerChain (recordEvent
          (refillCourt shuffle (removeFromSource
            { s with chess := ⟨(applyCardEffect card (calculateCardEffect s card)
                tg s.chess).snd, s.chess.turn⟩ }
            fc remaining) fc)
          (GameEvent.card card (calculateCardEffect s card) tg s.currentPlayer))
          card.suit))) := by
  unfold playCardWith
  dsimp only
  cases hsp : spliceById (if fc then s.courtCards.get s.currentPlayer
      else s.hands.get s.currentPlayer) cardId with
  | none =>
    left
    exact ⟨s.chess.board, rfl⟩
  | some pr =>
    obtain ⟨card, remaining⟩ := pr
    dsimp only
    by_cases hv : isValidCardPlay eng s.chess (calculateCardEffect s card) tg
        = true
    · rw [if_pos hv]
      by_cases ha : (applyCardEffect card (calculateCardEffect s card) tg
          s.chess).fst = true
      · rw [if_pos ha]
        right
        exact ⟨card, remaining, rfl, rfl⟩
      · rw [if_neg ha]
        left
        exact ⟨(applyCardEffect card (calculateCardEffect s card) tg
          s.chess).snd, rfl⟩
    · rw [if_neg hv]
      left
      exact ⟨s.chess.board, rfl⟩

/-- playCard is playCardWith on the synchronised state, for some converted
targets object. -/
theorem playCard_as_playCardWith (eng : ChessEngine)
    (shuffle : List Card → List Card) (s : GameState) (cardId : String)
    (targets : PlayTargets) (fc : Bool) :
    ∃ tg : CardTargets,
      playCard eng shuffle s cardId targets fc =
        playCardWith eng shuffle (syncTurn s) cardId tg fc := by
  unfold playCard
  exact ⟨_, rfl⟩

/-- A failed playCardWith changes at most the board. -/
theorem playCardWith_false_proj (eng : ChessEngine)
    (shuffle : List Card → List Card) (s : GameState) (cardId : String)
    (tg : CardTargets) (fc : Bool)
    (h : (playCardWith eng shuffle s cardId tg fc).fst = false) :
    (playCardWith eng shuffle s cardId tg fc).snd.currentPlayer =
      s.currentPlayer ∧
    (playCardWith eng shuffle s cardId tg fc).snd.chess.turn = s.chess.turn ∧
    (playCardWith eng shuffle s cardId tg fc).snd.powerChains =
      s.powerChains ∧
    (playCardWith eng shuffle s cardId tg fc).snd.moveHistory =
      s.moveHistory ∧
    (playCardWith eng shuffle s cardId tg fc).snd.hands = s.hands ∧
    (playCardWith eng shuffle s cardId tg fc).snd.courtCards =
      s.courtCards ∧
    (playCardWith eng shuffle s cardId tg fc).snd.cardSys = s.cardSys := by
  rcases playCardWith_shape eng shuffle s cardId tg fc with
    ⟨bd, heq⟩ | ⟨card, remaining, hsp, heq⟩
  · rw [heq]
    exact ⟨rfl, rfl, rfl, rfl, rfl, rfl, rfl⟩
  · rw [heq] at h
    simp at h

/-- A successful playCardWith flips the current player, leaves the chess
turn alone, and leaves the non-acting player's power chain alone. -/
theorem playCardWith_true_proj (eng : ChessEngine)
    (shuffle : List Card → List Card) (s : GameState) (cardId : String)
    (tg : CardTargets) (fc : Bool)
    (h : (playCardWith eng shuffle s cardId tg fc).fst = true) :
    (playCardWith eng shuffle s cardId tg fc).snd.currentPlayer =
      s.currentPlayer.other ∧
    (playCardWith eng shuffle s cardId tg fc).snd.chess.turn =
      s.chess.turn ∧
    ∀ q, q ≠ s.currentPlayer →
      (playCardWith eng shuffle s cardId tg fc).snd.powerChains.get q =
        s.powerChains.get q := by
  rcases playCardWith_shape eng shuffle s cardId tg fc with
    ⟨bd, heq⟩ | ⟨card, remaining, hsp, heq⟩
  · rw [heq] at h
    simp at h
  · rw [heq]
    refine ⟨by simp, by simp, ?_⟩
    intro q hq
    rw [endTurn_powerChains]
    rw [updatePowerChain_chain_other _ _ (by simpa using hq)]
    simp


/-! ## Concrete scenario states -/

/-- A fresh game over the standard starting position with the identity
shuffle: white hand [SK,SQ,SJ,S10,S9], black hand [S8..S4], white court
[S3,S2,SA], black court [CK,CQ,CJ], 36 cards left in the draw pile. -/
def freshIdGame : GameState := initializeGameState id ⟨initialBoard, .w⟩

/-- White king e1, black king e8, black rook e5: the rook checks the white
king along the e-file; the black king is attacked by nothing. -/
def boardC1 : Board :=
  boardOf [((7, 4), ⟨.k, .w⟩), ((0, 4), ⟨.k, .b⟩), ((3, 4), ⟨.r, .b⟩)]

/-- Adapter instance agreeing with chess.js on `boardC1`: white is in check
(rook e5 attacks e1 along the empty e-file), black is not; no chess move is
issued in this scenario. -/
def engC1 : ChessEngine :=
  ⟨fun _ _ => none, fun _ c => c = ChessColor.w⟩

/-- White to move on `boardC1`, holding only the Ace of Spades. -/
def gameC1 : GameState :=
  { chess := ⟨boardC1, .w⟩
    currentPlayer := .white
    hands := ⟨[mkCard .spades .ace], []⟩
    courtCards := ⟨[], []⟩
    powerChains := ⟨⟨none, 0⟩, ⟨none, 0⟩⟩
    moveHistory := []
    lastCardPlayed := none
    cardSys := ⟨[], []⟩ }

/-- White king e1, black king e8, black pawn e5; nobody is in check. -/
def boardC4 : Board :=
  boardOf [((7, 4), ⟨.k, .w⟩), ((0, 4), ⟨.k, .b⟩), ((3, 4), ⟨.p, .b⟩)]

/-- White to move on `boardC4` holding the Five of Spades, with an active
Spades power chain (a Spade was played on white's previous turn). -/
def gameC4 : GameState :=
  { chess := ⟨boardC4, .w⟩
    currentPlayer := .white
    hands := ⟨[mkCard .spades .five], []⟩
    courtCards := ⟨[], []⟩
    powerChains := ⟨⟨some .spades, 1⟩, ⟨none, 0⟩⟩
    moveHistory := []
    lastCardPlayed := none
    cardSys := ⟨[], []⟩ }

/-- Same position, no power chain, white holding the Seven of Spades. -/
def gameC4b : GameState :=
  { gameC4 with
    hands := ⟨[mkCard .spades .seven], []⟩
    powerChains := ⟨⟨none, 0⟩, ⟨none, 0⟩⟩ }

/-! ## Claim C1 -/

/-- C1 (code bug evaluation): playing the Ace of Spades on the opponent
King's square e8 SUCCEEDS and removes the black King even though the
adapter reports the black King is NOT in check — the gate the code actually
evaluates is `this.inCheck()`, the check status of the side to move (the
attacker, here in check from the rook on e5), not of the targeted opponent
King as the claim, the spec, and GAME_RULES.md require. -/
theorem c1_ace_strike_ignores_defender_check :
    (playCard engC1 id gameC1 "SA"
      (.structured { target := some "e8" }) false).fst = true ∧
    getSq (playCard engC1 id gameC1 "SA"
      (.structured { target := some "e8" }) false).snd.chess.board "e8" =
      none ∧
    engC1.inCheckOf gameC1.chess.board ChessColor.b = false ∧
    getSq gameC1.chess.board "e8" =
      some ⟨PieceType.k, ChessColor.b⟩ := by decide

/-! ## Claim C4 -/

/-- C4 (code bug evaluation).  First play: a power-chain-boosted NON-Ace
Strike (Five of Spades) targeting the black pawn on e5 succeeds and its
second, scan-driven removal deletes the black KING from e8.  Second play:
a plain non-Ace Strike (Seven of Spades) may even target the opponent King
square directly (`isOpponentPiece` holds of the King) and removes it with
no check-gating.  Both contradict the claim that no Strike removes a King
outside the Royal-Assassin Ace path. -/
theorem c4_strike_removes_king_eval :
    (playCard stubEngine id gameC4 "S5"
      (.structured { target := some "e5" }) false).fst = true ∧
    getSq (playCard stubEngine id gameC4 "S5"
      (.structured { target := some "e5" }) false).snd.chess.board "e5" =
      none ∧
    getSq (playCard stubEngine id gameC4 "S5"
      (.structured { target := some "e5" }) false).snd.chess.board "e8" =
      none ∧
    (mkCard .spades .five).value ≠ CardValue.ace ∧
    (playCard stubEngine id gameC4b "S7"
      (.structured { target := some "e8" }) false).fst = true ∧
    getSq (playCard stubEngine id gameC4b "S7"
      (.structured { target := some "e8" }) false).snd.chess.board "e8" =
      none := by decide

/-! ## Claim C5 -/

/-- C5 (code bug evaluation): a fresh game holds 52 cards across draw pile,
discard pile, hands and Courts, but after ONE successful card play (white
strikes the e7 pawn with the Nine of Spades) the total is 51 and the
discard pile is still empty: playCard splices the played card out of the
hand but never calls `CardSystem.discardCard`, so the card leaves every
tracked collection, contradicting the 52-card conservation invariant (and
GAME_RULES.md's "applying its effect immediately, then discarding it"). -/
theorem c5_deck_conservation_broken_eval :
    cardCount freshIdGame = 52 ∧
    (playCard stubEngine id freshIdGame "S9"
      (.structured { target := some "e7" }) false).fst = true ∧
    cardCount (playCard stubEngine id freshIdGame "S9"
      (.structured { target := some "e7" }) false).snd = 51 ∧
    (playCard stubEngine id freshIdGame "S9"
      (.structured { target := some "e7" }) false).snd.cardSys.discardPile =
      [] := by decide

/-- C2 (counterexample): the claim "success flips currentPlayer, failure
leaves it unchanged" is false.  From a fresh game white successfully plays
the Nine of Spades (striking e7), which flips `currentPlayer` to black but
leaves the chess engine's turn at white; the next call, a chess move that
the engine REJECTS, nevertheless changes `currentPlayer` from black back to
white, because both operations begin by overwriting `currentPlayer` with
the engine's turn.  (chess.js likewise rejects "e7"-"e5" here: white is to
move and e7 is empty after the strike, which `stubEngine` models.) -/
theorem c2_counterexample :
    (playCard stubEngine id freshIdGame "S9"
      (.structured { target := some "e7" }) false).fst = true ∧
    (playCard stubEngine id freshIdGame "S9"
      (.structured { target := some "e7" }) false).snd.currentPlayer =
      Player.black ∧
    (makeChessMove stubEngine (playCard stubEngine id freshIdGame "S9"
      (.structured { target := some "e7" }) false).snd "e7" "e5" none).fst =
      false ∧
    (makeChessMove stubEngine (playCard stubEngine id freshIdGame "S9"
      (.structured { target := some "e7" }) false).snd "e7" "e5"
      none).snd.currentPlayer = Player.white := by decide

/-- C2 (amended): PROVIDED the stored `currentPlayer` agrees with the chess
engine's side to move at call entry (which holds in chess-move-only play but
fails right after any successful card play), every successful
makeChessMove/playCard flips `currentPlayer` and every failed one leaves it
unchanged.  `hmove` is the chess-adapter contract that a successful move
hands the turn to the other colour. -/
theorem c2_turn_alternation_synced (eng : ChessEngine)
    (shuffle : List Card → List Card) (s : GameState)
    (hsync : s.currentPlayer = playerOfColor s.chess.turn)
    (hmove : ∀ cs m cs2, eng.moveFn cs m = some cs2 →
      cs2.turn = cs.turn.other) :
    (∀ f t pr,
      ((makeChessMove eng s f t pr).fst = true →
        (makeChessMove eng s f t pr).snd.currentPlayer =
          s.currentPlayer.other) ∧
      ((makeChessMove eng s f t pr).fst = false →
        (makeChessMove eng s f t pr).snd.currentPlayer = s.currentPlayer)) ∧
    (∀ cid targets fc,
      ((playCard eng shuffle s cid targets fc).fst = true →
        (playCard eng shuffle s cid targets fc).snd.currentPlayer =
          s.currentPlayer.other) ∧
      ((playCard eng shuffle s cid targets fc).fst = false →
        (playCard eng shuffle s cid targets fc).snd.currentPlayer =
          s.currentPlayer)) := by
  constructor
  · intro f t pr
    unfold makeChessMove
    rw [syncTurn_of_synced s hsync]
    dsimp only
    cases hm : eng.moveFn s.chess ⟨f, t, pr⟩ with
    | none =>
      constructor
      · intro h
        simp at h
      · intro _
        rfl
    | some cs2 =>
      constructor
      · intro _
        show playerOfColor cs2.turn = s.currentPlayer.other
        rw [hmove _ _ _ hm, playerOfColor_other, hsync]
      · intro h
        simp at h
  · intro cid targets fc
    obtain ⟨tg, heq⟩ := playCard_as_playCardWith eng shuffle s cid targets fc
    rw [heq, syncTurn_of_synced s hsync]
    constructor
    · intro h
      exact (playCardWith_true_proj eng shuffle s cid tg fc h).1
    · intro h
      exact (playCardWith_false_proj eng shuffle s cid tg fc h).1

/-- Witness for the amended C2 at concrete inputs: a successful chess move
and a successful card play flip white to black, and a failed card play
(unknown card id) leaves the player unchanged. -/
theorem c2_turn_alternation_synced_witness :
    (makeChessMove flipEngine freshIdGame "e2" "e4" none).snd.currentPlayer =
      freshIdGame.currentPlayer.other ∧
    (playCard flipEngine id freshIdGame "S9"
      (.structured { target := some "e7" }) false).snd.currentPlayer =
      freshIdGame.currentPlayer.other ∧
    (playCard flipEngine id freshIdGame "ZZ" .undef
      false).snd.currentPlayer = freshIdGame.currentPlayer := by
  have hmove : ∀ cs m cs2, flipEngine.moveFn cs m = some cs2 →
      cs2.turn = cs.turn.other := by
    intro cs m cs2 h
    have h2 : (⟨cs.board, cs.turn.other⟩ : ChessState) = cs2 := by
      simpa [flipEngine] using h
    rw [← h2]
  have hsync : freshIdGame.currentPlayer =
      playerOfColor freshIdGame.chess.turn := by decide
  refine ⟨((c2_turn_alternation_synced flipEngine id freshIdGame hsync
      hmove).1 "e2" "e4" none).1 (by decide),
    ((c2_turn_alternation_synced flipEngine id freshIdGame hsync
      hmove).2 "S9" (.structured { target := some "e7" }) false).1
      (by decide),
    ((c2_turn_alternation_synced flipEngine id freshIdGame hsync
      hmove).2 "ZZ" .undef false).2 (by decide)⟩


/-- C6: frame property of the power chains.  A chess move (successful or
not) leaves BOTH players' chains untouched, and a playCard call (successful
or not) leaves the non-acting player's chain untouched, where the acting
player is the one the engine attributes the play to
(`playerOfColor turn`). -/
theorem c6_opponent_chain_frame (eng : ChessEngine)
    (shuffle : List Card → List Card) (s : GameState) :
    (∀ f t pr,
      (makeChessMove eng s f t pr).snd.powerChains = s.powerChains) ∧
    (∀ cid targets fc,
      (playCard eng shuffle s cid targets fc).snd.powerChains.get
        (playerOfColor s.chess.turn).other =
      s.powerChains.get (playerOfColor s.chess.turn).other) := by
  constructor
  · intro f t pr
    unfold makeChessMove
    dsimp only
    cases hm : eng.moveFn (syncTurn s).chess ⟨f, t, pr⟩ with
    | none => exact syncTurn_powerChains s
    | some cs2 =>
      exact syncTurn_powerChains s
  · intro cid targets fc
    obtain ⟨tg, heq⟩ := playCard_as_playCardWith eng shuffle s cid targets fc
    rw [heq]
    cases hfst : (playCardWith eng shuffle (syncTurn s) cid tg fc).fst with
    | false =>
      rw [(playCardWith_false_proj eng shuffle (syncTurn s) cid tg fc
        hfst).2.2.1, syncTurn_powerChains]
    | true =>
      have h3 := (playCardWith_true_proj eng shuffle (syncTurn s) cid tg fc
        hfst).2.2 ((playerOfColor s.chess.turn).other)
        (by rw [syncTurn_currentPlayer]; exact Player.other_ne _)
      rw [h3, syncTurn_powerChains]

/-- C9: both operations begin by overwriting `currentPlayer` with the
player indicated by the chess engine's `turn()`.  Every failed call ends
with `currentPlayer = playerOfColor turn` regardless of its value before
the call; a successful card play leaves the chess turn unchanged while
flipping `currentPlayer`, so the synchronisation step of the immediately
following call re-attributes the turn to the player who just played the
card. -/
theorem c9_turn_resync_reattribution (eng : ChessEngine)
    (shuffle : List Card → List Card) (s : GameState) :
    (∀ f t pr, (makeChessMove eng s f t pr).fst = false →
      (makeChessMove eng s f t pr).snd.currentPlayer =
        playerOfColor s.chess.turn ∧
      (makeChessMove eng s f t pr).snd.chess = s.chess) ∧
    (∀ cid targets fc,
      (playCard eng shuffle s cid targets fc).fst = false →
      (playCard eng shuffle s cid targets fc).snd.currentPlayer =
        playerOfColor s.chess.turn) ∧
    (∀ cid targets fc,
      (playCard eng shuffle s cid targets fc).fst = true →
      (playCard eng shuffle s cid targets fc).snd.chess.turn =
        s.chess.turn ∧
      (playCard eng shuffle s cid targets fc).snd.currentPlayer =
        (playerOfColor s.chess.turn).other ∧
      (syncTurn (playCard eng shuffle s cid targets fc).snd).currentPlayer =
        playerOfColor s.chess.turn) := by
  refine ⟨?_, ?_, ?_⟩
  · intro f t pr
    unfold makeChessMove
    dsimp only
    cases hm : eng.moveFn (syncTurn s).chess ⟨f, t, pr⟩ with
    | none =>
      intro _
      exact ⟨syncTurn_currentPlayer s, syncTurn_chess s⟩
    | some cs2 =>
      intro h
      simp at h
  · intro cid targets fc h
    obtain ⟨tg, heq⟩ := playCard_as_playCardWith eng shuffle s cid targets fc
    rw [heq] at h ⊢
    rw [(playCardWith_false_proj eng shuffle (syncTurn s) cid tg fc h).1,
      syncTurn_currentPlayer]
  · intro cid targets fc h
    obtain ⟨tg, heq⟩ := playCard_as_playCardWith eng shuffle s cid targets fc
    rw [heq] at h ⊢
    have hp := playCardWith_true_proj eng shuffle (syncTurn s) cid tg fc h
    have hturn : (playCardWith eng shuffle (syncTurn s) cid tg
        fc).snd.chess.turn = s.chess.turn := by
      rw [hp.2.1, syncTurn_chess]
    refine ⟨hturn, ?_, ?_⟩
    · rw [hp.1, syncTurn_currentPlayer]
    · rw [syncTurn_currentPlayer, hturn]


/-- Witness for C9 at concrete inputs: a rejected chess move and an unknown
card id leave `currentPlayer` re-synced to the chess turn, and after a
successful card play the next call's sync hands the turn back to the card
player. -/
theorem c9_turn_resync_reattribution_witness :
    ((makeChessMove stubEngine freshIdGame "e2" "e4" none).snd.currentPlayer
        = playerOfColor freshIdGame.chess.turn ∧
      (makeChessMove stubEngine freshIdGame "e2" "e4" none).snd.chess =
        freshIdGame.chess) ∧
    ((playCard stubEngine id freshIdGame "ZZ" .undef
        false).snd.currentPlayer = playerOfColor freshIdGame.chess.turn) ∧
    ((playCard stubEngine id freshIdGame "S9"
        (.structured { target := some "e7" }) false).snd.chess.turn =
        freshIdGame.chess.turn ∧
      (playCard stubEngine id freshIdGame "S9"
        (.structured { target := some "e7" }) false).snd.currentPlayer =
        (playerOfColor freshIdGame.chess.turn).other ∧
      (syncTurn (playCard stubEngine id freshIdGame "S9"
        (.structured { target := some "e7" }) false).snd).currentPlayer =
        playerOfColor freshIdGame.chess.turn) :=
  ⟨(c9_turn_resync_reattribution stubEngine id freshIdGame).1 "e2" "e4"
      none (by decide),
   (c9_turn_resync_reattribution stubEngine id freshIdGame).2.1 "ZZ"
      .undef false (by decide),
   (c9_turn_resync_reattribution stubEngine id freshIdGame).2.2 "S9"
      (.structured { target := some "e7" }) false (by decide)⟩

/-- isPowerChainActive in propositional form: the stored chain has the
played suit with a count of at least one. -/
theorem isPowerChainActive_iff (s : GameState) (suit : CardSuit) :
    isPowerChainActive s suit = true ↔
      ((s.powerChains.get s.currentPlayer).suit = some suit ∧
       1 ≤ (s.powerChains.get s.currentPlayer).count) := by
  unfold isPowerChainActive
  dsimp only
  split
  · next hsuit => simp [hsuit]
  · next hsuit => simp [hsuit]

/-- C3: for every successful card play, the effect recorded with the play
(the same effect object that was applied to the board) is Power-Chain
boosted if and only if, before the play, the acting player's stored chain
suit equals the played card's suit with a count of at least 1; and the
acting player's chain afterwards is incremented on a suit match and reset
to (suit, 1) otherwise. -/
theorem c3_power_chain_boost_and_update (eng : ChessEngine)
    (shuffle : List Card → List Card) (s : GameState) (cardId : String)
    (targets : PlayTargets) (fc : Bool)
    (h : (playCard eng shuffle s cardId targets fc).fst = true) :
    ∃ card tg,
      card.id = cardId ∧
      (playCard eng shuffle s cardId targets fc).snd.moveHistory =
        s.moveHistory ++ [GameEvent.card card
          (calculateCardEffect (syncTurn s) card) tg
          (playerOfColor s.chess.turn)] ∧
      ((calculateCardEffect (syncTurn s) card).isPowerChain = true ↔
        ((s.powerChains.get (playerOfColor s.chess.turn)).suit =
            some card.suit ∧
         1 ≤ (s.powerChains.get (playerOfColor s.chess.turn)).count)) ∧
      (playCard eng shuffle s cardId targets fc).snd.powerChains.get
          (playerOfColor s.chess.turn) =
        (if (s.powerChains.get (playerOfColor s.chess.turn)).suit =
            some card.suit then
          (⟨(s.powerChains.get (playerOfColor s.chess.turn)).suit,
            (s.powerChains.get (playerOfColor s.chess.turn)).count + 1⟩ :
            PowerChain)
         else ⟨some card.suit, 1⟩) := by
  obtain ⟨tg, heq⟩ := playCard_as_playCardWith eng shuffle s cardId targets fc
  rw [heq] at h ⊢
  rcases playCardWith_shape eng shuffle (syncTurn s) cardId tg fc with
    ⟨bd, hres⟩ | ⟨card, remaining, hsp, hres⟩
  · rw [hres] at h
    simp at h
  · refine ⟨card, tg, spliceById_id hsp, ?_, ?_, ?_⟩
    · rw [hres]
      simp [endTurn_moveHistory, updatePowerChain_moveHistory,
        recordEvent_moveHistory, refillCourt_moveHistory,
        removeFromSource_moveHistory, syncTurn_moveHistory,
        syncTurn_currentPlayer]
    · have hcalc : (calculateCardEffect (syncTurn s) card).isPowerChain =
          isPowerChainActive (syncTurn s) card.suit := rfl
      rw [hcalc, isPowerChainActive_iff, syncTurn_powerChains,
        syncTurn_currentPlayer]
    · rw [hres]
      dsimp only
      rw [endTurn_powerChains]
      have hcp : (recordEvent (refillCourt shuffle (removeFromSource
          { syncTurn s with chess := ⟨(applyCardEffect card
              (calculateCardEffect (syncTurn s) card) tg
              (syncTurn s).chess).snd, (syncTurn s).chess.turn⟩ }
          fc remaining) fc) (GameEvent.card card
            (calculateCardEffect (syncTurn s) card) tg
            (syncTurn s).currentPlayer)).currentPlayer =
          playerOfColor s.chess.turn := by
        simp [syncTurn_currentPlayer]
      have hch : (recordEvent (refillCourt shuffle (removeFromSource
          { syncTurn s with chess := ⟨(applyCardEffect card
              (calculateCardEffect (syncTurn s) card) tg
              (syncTurn s).chess).snd, (syncTurn s).chess.turn⟩ }
          fc remaining) fc) (GameEvent.card card
            (calculateCardEffect (syncTurn s) card) tg
            (syncTurn s).currentPlayer)).powerChains = s.powerChains := by
        simp [syncTurn_powerChains]
      rw [← hcp, updatePowerChain_chain_self, hch, hcp]


/-- Witness for C3: white, holding an active (spades, 1) chain, plays the
Five of Spades; the recorded effect is boosted and the chain becomes
(spades, 2). -/
theorem c3_power_chain_boost_and_update_witness :
    ∃ card tg,
      card.id = "S5" ∧
      (playCard stubEngine id gameC4 "S5"
        (.structured { target := some "e5" }) false).snd.moveHistory =
        gameC4.moveHistory ++ [GameEvent.card card
          (calculateCardEffect (syncTurn gameC4) card) tg
          (playerOfColor gameC4.chess.turn)] ∧
      ((calculateCardEffect (syncTurn gameC4) card).isPowerChain = true ↔
        ((gameC4.powerChains.get (playerOfColor gameC4.chess.turn)).suit =
            some card.suit ∧
         1 ≤ (gameC4.powerChains.get
            (playerOfColor gameC4.chess.turn)).count)) ∧
      (playCard stubEngine id gameC4 "S5"
        (.structured { target := some "e5" }) false).snd.powerChains.get
          (playerOfColor gameC4.chess.turn) =
        (if (gameC4.powerChains.get (playerOfColor gameC4.chess.turn)).suit =
            some card.suit then
          (⟨(gameC4.powerChains.get (playerOfColor gameC4.chess.turn)).suit,
            (gameC4.powerChains.get
              (playerOfColor gameC4.chess.turn)).count + 1⟩ : PowerChain)
         else ⟨some card.suit, 1⟩) :=
  c3_power_chain_boost_and_update stubEngine id gameC4 "S5"
    (.structured { target := some "e5" }) false (by decide)

/-- C8: every Hearts (Rescue) play whose structured destination square is
occupied by a piece of either colour fails, with the board, hands and
Courts unchanged. -/
theorem c8_rescue_occupied_rejected (eng : ChessEngine)
    (shuffle : List Card → List Card) (s : GameState) (cardId : String)
    (tg : CardTargets) (fc : Bool) (card : Card) (rest : List Card)
    (d : String) (pc : Piece)
    (hsplice : spliceById (if fc then
        (syncTurn s).courtCards.get (syncTurn s).currentPlayer
      else (syncTurn s).hands.get (syncTurn s).currentPlayer) cardId =
      some (card, rest))
    (hsuit : card.suit = CardSuit.hearts)
    (hdest : tg.destination = some d)
    (hocc : getSq s.chess.board d = some pc) :
    (playCard eng shuffle s cardId (.structured tg) fc).fst = false ∧
    (playCard eng shuffle s cardId (.structured tg) fc).snd.chess.board =
      s.chess.board ∧
    (playCard eng shuffle s cardId (.structured tg) fc).snd.hands =
      s.hands ∧
    (playCard eng shuffle s cardId (.structured tg) fc).snd.courtCards =
      s.courtCards := by
  have htype : (calculateCardEffect (syncTurn s) card).type =
      EffectType.rescue := by
    unfold calculateCardEffect
    rw [hsuit]
  have hv : ¬(isValidCardPlay eng (syncTurn s).chess
      (calculateCardEffect (syncTurn s) card) tg = true) := by
    unfold isValidCardPlay
    rw [htype]
    dsimp only
    split
    · simp
    · split
      · simp
      · rw [syncTurn_chess, hdest]
        simp only [Option.getD_some]
        rw [hocc]
        simp
  have hplay : playCard eng shuffle s cardId (.structured tg) fc =
      (false, syncTurn s) := by
    unfold playCard
    dsimp only
    unfold playCardWith
    dsimp only
    rw [hsplice]
    dsimp only
    rw [if_neg hv]
  rw [hplay]
  exact ⟨rfl, by rw [syncTurn_chess], syncTurn_hands s, syncTurn_courtCards s⟩

/-- A starting-position state where white holds only the Five of Hearts. -/
def gameC8 : GameState :=
  { chess := ⟨initialBoard, .w⟩
    currentPlayer := .white
    hands := ⟨[mkCard .hearts .five], []⟩
    courtCards := ⟨[], []⟩
    powerChains := ⟨⟨none, 0⟩, ⟨none, 0⟩⟩
    moveHistory := []
    lastCardPlayed := none
    cardSys := ⟨[], []⟩ }

/-- Witness for C8: rescuing to e2 (occupied by white's own pawn) from the
starting position fails and mutates nothing. -/
theorem c8_rescue_occupied_rejected_witness :
    (playCard stubEngine id gameC8 "H5"
      (.structured { destination := some "e2" }) false).fst = false ∧
    (playCard stubEngine id gameC8 "H5"
      (.structured { destination := some "e2" }) false).snd.chess.board =
      gameC8.chess.board ∧
    (playCard stubEngine id gameC8 "H5"
      (.structured { destination := some "e2" }) false).snd.hands =
      gameC8.hands ∧
    (playCard stubEngine id gameC8 "H5"
      (.structured { destination := some "e2" }) false).snd.courtCards =
      gameC8.courtCards :=
  c8_rescue_occupied_rejected stubEngine id gameC8 "H5"
    { destination := some "e2" } false (mkCard .hearts .five) [] "e2"
    ⟨PieceType.p, ChessColor.w⟩ (by decide) rfl rfl (by decide)


/-- Whether an effect-application result is a normal return (no thrown
error). -/
def effOk : EffResult → Bool
  | .ok _ => true
  | .error _ => false

/-- The translated rescue applier never escapes with an error. -/
theorem applyRescueEffect_ok (card : Card) (effect : CardEffect)
    (tg : CardTargets) (cs : ChessState) :
    effOk (applyRescueEffect card effect tg cs) = true := by
  unfold applyRescueEffect
  repeat' first | rfl | split | dsimp only

/-- The translated upgrade applier never escapes with an error. -/
theorem applyUpgradeEffect_ok (card : Card) (effect : CardEffect)
    (tg : CardTargets) (cs : ChessState) :
    effOk (applyUpgradeEffect card effect tg cs) = true := by
  unfold applyUpgradeEffect
  repeat' first | rfl | split | dsimp only

/-- The translated swap applier never escapes with an error. -/
theorem applySwapEffect_ok (card : Card) (effect : CardEffect)
    (tg : CardTargets) (cs : ChessState) :
    effOk (applySwapEffect card effect tg cs) = true := by
  unfold applySwapEffect
  repeat' first | rfl | split | dsimp only

/-- The translated strike applier never escapes with an error. -/
theorem applyStrikeEffect_ok (card : Card) (effect : CardEffect)
    (tg : CardTargets) (cs : ChessState) :
    effOk (applyStrikeEffect card effect tg cs) = true := by
  unfold applyStrikeEffect
  repeat' first | rfl | split | dsimp only

/-- C10: playCard returns a boolean for every input and never lets an
error escape: (1) the effect appliers inside applyCardEffect's try block
finish normally on every input, (2) the catch converts any thrown error
into a `false` return (keeping the board as mutated so far), (3) an unknown
card id yields a clean `false` with only the turn-sync applied, and (4)
playCard is total on arbitrary card ids, targets and states. -/
theorem c10_playCard_total_catchall :
    (∀ (card : Card) (effect : CardEffect) (tg : CardTargets)
        (cs : ChessState),
      effOk (applyCardEffectBody card effect tg cs) = true) ∧
    (∀ (msg : String) (bmut : Board),
      catchCardEffect (Except.error (msg, bmut)) = (false, bmut)) ∧
    (∀ (eng : ChessEngine) (shuffle : List Card → List Card)
        (s : GameState) (cardId : String) (targets : PlayTargets)
        (fc : Bool),
      (∀ c ∈ (if fc then
          (syncTurn s).courtCards.get (syncTurn s).currentPlayer
        else (syncTurn s).hands.get (syncTurn s).currentPlayer),
        c.id ≠ cardId) →
      playCard eng shuffle s cardId targets fc = (false, syncTurn s)) ∧
    (∀ (eng : ChessEngine) (shuffle : List Card → List Card)
        (s : GameState) (cardId : String) (targets : PlayTargets)
        (fc : Bool),
      ∃ (b : Bool) (s2 : GameState),
        playCard eng shuffle s cardId targets fc = (b, s2)) := by
  refine ⟨?_, ?_, ?_, ?_⟩
  · intro card effect tg cs
    unfold applyCardEffectBody
    cases effect.type
    · exact applyRescueEffect_ok card effect tg cs
    · exact applyUpgradeEffect_ok card effect tg cs
    · exact applySwapEffect_ok card effect tg cs
    · exact applyStrikeEffect_ok card effect tg cs
  · intro msg bmut
    rfl
  · intro eng shuffle s cardId targets fc hnone
    obtain ⟨tg, heq⟩ :=
      playCard_as_playCardWith eng shuffle s cardId targets fc
    rw [heq]
    unfold playCardWith
    dsimp only
    rw [spliceById_eq_none hnone]
  · intro eng shuffle s cardId targets fc
    exact ⟨_, _, rfl⟩

/-- Witness for C10: playing an unknown card id "ZZ" with no targets
returns false and performs only the turn sync. -/
theorem c10_playCard_total_catchall_witness :
    playCard stubEngine id gameC1 "ZZ" .undef false =
      (false, syncTurn gameC1) :=
  c10_playCard_total_catchall.2.2.1 stubEngine id gameC1 "ZZ" .undef false
    (by decide)

/-- C7 (spec-modelled Joust resolver over the source getCardValue): a
strictly higher defender rank blocks the attack with no board mutation, a
strictly higher attacker rank lets it proceed, a tie blocks it like a
defender win; in every outcome both wagered cards are discarded and never
returned to hand; and the comparison uses the high-Ace rank order
(A=14 > K=13 > Q=12 > J=11 > ...), suit irrelevant, reproducing the spec's
three worked examples. -/
theorem c7_joust_resolution (attackCard defendCard : Card)
    (ah dh disc : List Card) (board : Board)
    (applyAttack : Board → Board) :
    (getCardValue defendCard > getCardValue attackCard →
      (resolveJoust attackCard defendCard ah dh disc board
        applyAttack).outcome = JoustOutcome.attackBlocked ∧
      (resolveJoust attackCard defendCard ah dh disc board
        applyAttack).board = board) ∧
    (getCardValue attackCard > getCardValue defendCard →
      (resolveJoust attackCard defendCard ah dh disc board
        applyAttack).outcome = JoustOutcome.attackProceeds ∧
      (resolveJoust attackCard defendCard ah dh disc board
        applyAttack).board = applyAttack board) ∧
    (getCardValue attackCard = getCardValue defendCard →
      (resolveJoust attackCard defendCard ah dh disc board
        applyAttack).outcome = JoustOutcome.attackBlocked ∧
      (resolveJoust attackCard defendCard ah dh disc board
        applyAttack).board = board) ∧
    (resolveJoust attackCard defendCard ah dh disc board
      applyAttack).discardPile = disc ++ [attackCard, defendCard] ∧
    attackCard ∉ (resolveJoust attackCard defendCard ah dh disc board
      applyAttack).attackerHand ∧
    defendCard ∉ (resolveJoust attackCard defendCard ah dh disc board
      applyAttack).defenderHand ∧
    getCardValue (mkCard .spades .ace) = 14 ∧
    getCardValue (mkCard .hearts .king) = 13 ∧
    getCardValue (mkCard .diamonds .queen) = 12 ∧
    getCardValue (mkCard .clubs .jack) = 11 ∧
    (resolveJoust (mkCard .spades .five) (mkCard .hearts .king) [] [] []
      board id).outcome = JoustOutcome.attackBlocked ∧
    (resolveJoust (mkCard .spades .ace) (mkCard .hearts .seven) [] [] []
      board id).outcome = JoustOutcome.attackProceeds ∧
    (resolveJoust (mkCard .spades .queen) (mkCard .hearts .queen) [] [] []
      board id).outcome = JoustOutcome.attackBlocked := by
  unfold resolveJoust
  dsimp only
  refine ⟨?_, ?_, ?_, rfl, ?_, ?_, rfl, rfl, rfl, rfl, rfl, rfl, rfl⟩
  · intro h
    rw [if_neg (by omega), if_neg (by omega)]
    exact ⟨rfl, rfl⟩
  · intro h
    rw [if_pos h, if_pos h]
    exact ⟨rfl, rfl⟩
  · intro h
    rw [if_neg (by omega), if_neg (by omega)]
    exact ⟨rfl, rfl⟩
  · simp
  · simp

/-- Witness for C7: 5 vs K is blocked (board untouched), A vs 7 proceeds,
Q vs Q is blocked. -/
theorem c7_joust_resolution_witness :
    ((resolveJoust (mkCard .spades .five) (mkCard .hearts .king)
        [mkCard .spades .five] [mkCard .hearts .king] [] emptyBoard
        id).outcome = JoustOutcome.attackBlocked ∧
      (resolveJoust (mkCard .spades .five) (mkCard .hearts .king)
        [mkCard .spades .five] [mkCard .hearts .king] [] emptyBoard
        id).board = emptyBoard) ∧
    ((resolveJoust (mkCard .spades .ace) (mkCard .hearts .seven) [] [] []
        emptyBoard id).outcome = JoustOutcome.attackProceeds ∧
      (resolveJoust (mkCard .spades .ace) (mkCard .hearts .seven) [] [] []
        emptyBoard id).board = id emptyBoard) ∧
    ((resolveJoust (mkCard .diamonds .queen) (mkCard .clubs .queen) [] [] []
        emptyBoard id).outcome = JoustOutcome.attackBlocked ∧
      (resolveJoust (mkCard .diamonds .queen) (mkCard .clubs .queen) [] [] []
        emptyBoard id).board = emptyBoard) :=
  ⟨(c7_joust_resolution (mkCard .spades .five) (mkCard .hearts .king)
      [mkCard .spades .five] [mkCard .hearts .king] [] emptyBoard id).1
      (by decide),
   (c7_joust_resolution (mkCard .spades .ace) (mkCard .hearts .seven)
      [] [] [] emptyBoard id).2.1 (by decide),
   (c7_joust_resolution (mkCard .diamonds .queen) (mkCard .clubs .queen)
      [] [] [] emptyBoard id).2.2.1 (by decide)⟩

end RoyalGambit
